import Mathlib

/-!
Verification development for the `gio_pyio` stream adapter
(`src/gio_pyio/wrappers/stream_wrapper.py`, duplicated in
`src/gio_pyio/__init__.py`) and the boundary `open` function
(`src/gio_pyio/__init__.py`).

The Python code wraps a Gio stream (a `Gio.InputStream`, a
`Gio.OutputStream`, or a bidirectional `Gio.IOStream` whose two views share
one position) behind the standard Python file-object contract.  The shallow
embedding below models:

  * the underlying Gio stream as an explicit state record `GioStream`
    (byte contents, position, closed flag, optional capabilities), extended
    with ghost instrumentation (`readLog`, `writeCalls`, `seekLogIn`,
    `seekLogOut`) that records which primitive calls the wrapper issues to
    the provider — these fields are never read by the wrapper itself;
  * the wrapper `StreamWrapper` as the stream state plus the capability
    shape fixed by the constructor;
  * each Python method as a function returning `Except IOErr _` paired with
    the updated wrapper state (an exception propagating out of a method
    still leaves behind whatever mutations already happened);
  * Python byte strings as `List Nat`.

Machine-level details that the claims do not touch (GLib error domains,
memoryview casting, reference counting) are collapsed; every branch and
check of the Python methods is kept, including the unbound-local slip in
`read` and the tuple-truthiness slip in `fileno`.
-/

/-- Error taxonomy of the adapter, mirroring the Python exceptions raised:
`ValueError` (closed stream / invalid argument), `io.UnsupportedOperation`
with the operation name, `TypeError` (bad constructor argument),
`AttributeError` (calling a missing accessor), `UnboundLocalError`
(reading a local variable that was never assigned), `OSError` with an
errno, and `GLib.Error` surfaced from the provider. -/
inductive IOErr where
  | valueError : IOErr
  | unsupported (name : String) : IOErr
  | typeError : IOErr
  | attributeError (name : String) : IOErr
  | unboundLocal (name : String) : IOErr
  | osError (errno : Nat) : IOErr
  | gError : IOErr
  deriving DecidableEq, Repr

/-- `io.DEFAULT_BUFFER_SIZE`. -/
def DEFAULT_BUFFER_SIZE : Nat := 8192

/-- State of the underlying Gio stream (one shared state; for a
`Gio.IOStream` the input and output views both delegate to it, which is
exactly the sharing the source comments assume).

Capability fields model the dynamic probes of the Python code:
`bufferSize = some n` means the input stream is a `Gio.BufferedInputStream`
whose `get_buffer_size()` returns `n`; `hasGetSize` / `hasQueryInfo` model
`hasattr(stream, 'get_size')` / `hasattr(stream, 'query_info')`, with both
accessors reporting the total byte size of the resource; `canSeek`,
`canTruncate`, `hasGetFd`/`fd` model `can_seek()`, `can_truncate()` and the
optional `get_fd()` accessor.

`readLog` (sizes requested from `read_bytes`), `writeCalls`, `seekLogIn`
and `seekLogOut` (offset and translated Gio whence of each underlying seek
issued to the input/output view) are ghost instrumentation. -/
structure GioStream where
  data : List Nat
  pos : Nat
  closed : Bool
  bufferSize : Option Nat
  hasGetSize : Bool
  hasQueryInfo : Bool
  canSeek : Bool
  canTruncate : Bool
  hasGetFd : Bool
  fd : Nat
  readLog : List Nat
  writeCalls : Nat
  seekLogIn : List (Int × Nat)
  seekLogOut : List (Int × Nat)
  deriving DecidableEq, Repr

/-- Capability shape fixed by `StreamWrapper.__init__`: input-only stream,
output-only stream, or a combined `Gio.IOStream`. -/
inductive StreamKind where
  | input : StreamKind
  | output : StreamKind
  | ioPair : StreamKind
  deriving DecidableEq, Repr

/-- The adapter: the capability shape chosen at construction plus the
shared underlying stream state.  For the `ioPair` shape the input view,
the output view and the reference stream are all views of the one `st`. -/
structure StreamWrapper where
  kind : StreamKind
  st : GioStream
  deriving DecidableEq, Repr

/-- The object handed to the constructor: one of the three recognized
Gio stream classes carrying its state, or any other Python object. -/
inductive GioObject where
  | inputStream (st : GioStream) : GioObject
  | outputStream (st : GioStream) : GioObject
  | ioStreamPair (st : GioStream) : GioObject
  | other (descr : String) : GioObject
  deriving DecidableEq, Repr

namespace GioStream

/-- `g_input_stream_read_bytes(n)`: returns the next `min n remaining`
bytes and advances the position; the requested size is recorded in the
ghost `readLog`.  The chunk is empty exactly at end of stream. -/
def read_bytes (s : GioStream) (n : Nat) : List Nat × GioStream :=
  let chunk := (s.data.drop s.pos).take n
  (chunk, { s with pos := s.pos + chunk.length, readLog := s.readLog ++ [n] })

/-- `g_output_stream_write_bytes(b)`: positional write that overwrites in
place, zero-padding any gap if the position is past the end, and reports
the full length as written. -/
def write_bytes (s : GioStream) (b : List Nat) : Nat × GioStream :=
  (b.length,
    { s with
      data := s.data.take s.pos ++ List.replicate (s.pos - s.data.length) 0
                ++ b ++ s.data.drop (s.pos + b.length),
      pos := s.pos + b.length,
      writeCalls := s.writeCalls + 1 })

/-- Closing a Gio stream: idempotent, marks the shared state closed. -/
def closeStream (s : GioStream) : GioStream := { s with closed := true }

/-- `g_seekable_seek(offset, gw)` on one view of the stream, where `gw` is
the Gio enumeration (`0 = CUR`, `1 = SET`, `2 = END`).  The call is logged
(ghost) against the input view when `isInput` and against the output view
otherwise; a negative resulting offset fails with a `GLib.Error`. -/
def seekRaw (s : GioStream) (offset : Int) (gw : Nat) (isInput : Bool) :
    Except IOErr Unit × GioStream :=
  let s1 := if isInput then { s with seekLogIn := s.seekLogIn ++ [(offset, gw)] }
            else { s with seekLogOut := s.seekLogOut ++ [(offset, gw)] }
  let target : Int :=
    if gw = 1 then offset
    else if gw = 0 then (s.pos : Int) + offset
    else (s.data.length : Int) + offset
  if target < 0 then (.error .gError, s1)
  else (.ok (), { s1 with pos := target.toNat })

/-- `g_seekable_truncate(size)`: sets the byte length, zero-extending. -/
def truncateRaw (s : GioStream) (size : Nat) : GioStream :=
  { s with data := s.data.take size ++ List.replicate (size - s.data.length) 0 }

end GioStream

namespace StreamWrapper

/-- `StreamWrapper.__init__`: classify the argument, or `TypeError`. -/
def init : GioObject → Except IOErr StreamWrapper
  | .inputStream st => .ok ⟨.input, st⟩
  | .outputStream st => .ok ⟨.output, st⟩
  | .ioStreamPair st => .ok ⟨.ioPair, st⟩
  | .other _ => .error .typeError

/-- `readable()`: `self._input_stream is not None`. -/
def readable (w : StreamWrapper) : Bool :=
  match w.kind with
  | .output => false
  | _ => true

/-- `writable()`: `self._output_stream is not None`. -/
def writable (w : StreamWrapper) : Bool :=
  match w.kind with
  | .input => false
  | _ => true

/-- The derived `closed` property: `self._ref_stream.is_closed()`. -/
def closed (w : StreamWrapper) : Bool := w.st.closed

/-- `close()`: for the combined shape, close the `Gio.IOStream` itself
(closing both views); otherwise close whichever view is present.  Closing
an already-closed Gio stream is a no-op. -/
def close (w : StreamWrapper) : StreamWrapper :=
  if w.kind = .ioPair then { w with st := w.st.closeStream }
  else
    let st1 := if w.readable then w.st.closeStream else w.st
    let st2 := if w.writable then st1.closeStream else st1
    { w with st := st2 }

/-- Truth value of the Python expression `(self._ref_stream, 'get_fd')`
tested by `fileno`: a two-element tuple is always truthy, whatever its
elements, so the intended accessor probe never fires. -/
def refStreamGetFdTupleTruthy (_w : StreamWrapper) : Bool := true

/-- `fileno()`: closed check, then the (vacuous) tuple test, then an
unconditional call of `get_fd()` — `AttributeError` when the reference
stream has no such accessor. -/
def fileno (w : StreamWrapper) : Except IOErr Nat :=
  if w.closed then .error .valueError
  else if ¬ w.refStreamGetFdTupleTruthy then .error (.unsupported "fileno")
  else if w.st.hasGetFd then .ok w.st.fd
  else .error (.attributeError "get_fd")

/-- `flush()`: closed check, then flush the output view when writable
(the provider flush does not change the modelled state). -/
def flush (w : StreamWrapper) : Except IOErr Unit × StreamWrapper :=
  if w.closed then (.error .valueError, w)
  else (.ok (), w)

/-- `tell()`: closed check, then `self._ref_stream.tell()`. -/
def tell (w : StreamWrapper) : Except IOErr Nat :=
  if w.closed then .error .valueError
  else .ok w.st.pos

/-- `seekable()`: closed check, then `self._ref_stream.can_seek()`. -/
def seekable (w : StreamWrapper) : Except IOErr Bool :=
  if w.closed then .error .valueError
  else .ok w.st.canSeek

/-- The body of the `while True` accumulation loop of `read` with
size `< 0`, with an explicit fuel argument standing in for the missing
bound of the Python loop; `none` models non-termination and is proved
unreachable for the fuel `read` supplies (`readLoopF_spec`).

Each iteration first grows the planned buffer size when the accumulator
has reached it (`bufsize = len(result); bufsize += max(bufsize,
def_bufsize)`), then requests exactly the outstanding headroom
`bufsize - len(result)` and stops at the first empty chunk. -/
def readLoopF : Nat → GioStream → List Nat → Nat → Nat →
    Option (List Nat × GioStream)
  | 0, _, _, _, _ => none
  | fuel + 1, st, result, bufsize, def_bufsize =>
    let bufsize1 :=
      if bufsize ≤ result.length then result.length + max result.length def_bufsize
      else bufsize
    let n := bufsize1 - result.length
    let p := st.read_bytes n
    if p.1 = [] then some (result, p.2)
    else readLoopF fuel p.2 (result ++ p.1) bufsize1 def_bufsize

/-- Run the accumulation loop from the current position with the given
initial plan.  The fuel `remaining + 1` is enough because every iteration
before the final empty chunk consumes at least one byte
(`readLoopF_spec`); the `none` branch is unreachable. -/
def readFrom (w : StreamWrapper) (bufsize def_bufsize : Nat) :
    Except IOErr (List Nat) × StreamWrapper :=
  match readLoopF (w.st.data.length - w.st.pos + 1) w.st [] bufsize def_bufsize with
  | some p => (.ok p.1, { w with st := p.2 })
  | none => (.error .valueError, w)

/-- `read(size)`: closed and readable checks; `size == 0` returns `b''`
with no provider call; `size > 0` issues exactly one `read_bytes(size)`
and returns its chunk; `size < 0` determines the initial plan and runs the
accumulation loop.

The plan determination mirrors the source exactly, including its slip:
in the `Gio.BufferedInputStream` branch only `def_bufsize` is assigned,
and in the `end is not None` branch with `end < pos` nothing is assigned,
so the loop's first use of the local `bufsize` raises
`UnboundLocalError` before any provider read is issued. -/
def read (w : StreamWrapper) (size : Int) : Except IOErr (List Nat) × StreamWrapper :=
  if w.closed then (.error .valueError, w)
  else if ¬ w.readable then (.error (.unsupported "read"), w)
  else if size = 0 then (.ok [], w)
  else if 0 < size then
    let p := w.st.read_bytes size.toNat
    (.ok p.1, { w with st := p.2 })
  else
    match w.st.bufferSize with
    | some _ => (.error (.unboundLocal "bufsize"), w)
    | none =>
      let def_bufsize := DEFAULT_BUFFER_SIZE
      let endSize : Option Nat :=
        if w.st.hasGetSize then some w.st.data.length
        else if w.st.hasQueryInfo then some w.st.data.length
        else none
      match endSize with
      | some e =>
        if w.st.pos ≤ e then w.readFrom (e - w.st.pos + 1) def_bufsize
        else (.error (.unboundLocal "bufsize"), w)
      | none => w.readFrom def_bufsize def_bufsize

/-- `read1` is the same function object as `read`. -/
def read1 := @read

/-- `readall` is the same function object as `read`. -/
def readall := @read

/-- `readinto(b)`: closed and readable checks; one `read_bytes(len(b))`
call; the returned bytes overwrite the front of the buffer, the rest of
the buffer is untouched; returns the count.  The result triple is
(return value, buffer after the call, wrapper after the call). -/
def readinto (w : StreamWrapper) (b : List Nat) :
    Except IOErr Nat × List Nat × StreamWrapper :=
  if w.closed then (.error .valueError, b, w)
  else if ¬ w.readable then (.error (.unsupported "read"), b, w)
  else
    let p := w.st.read_bytes b.length
    (.ok p.1.length, p.1 ++ b.drop p.1.length, { w with st := p.2 })

/-- `readinto1` is the same function object as `readinto`. -/
def readinto1 := @readinto

/-- The whence translation of `seek`: `if whence != 2: whence = not
whence`, producing a Gio enumeration value (`not 0` is `True`, passed as
`1`; `not` of anything non-zero is `False`, passed as `0`). -/
def translateWhence (whence : Int) : Nat :=
  if whence = 2 then 2
  else if whence = 0 then 1
  else 0

/-- `seek(offset, whence)`: closed and seekable checks; translate the
whence; apply the translated seek to the input view when readable and to
the output view when writable (both against the one shared position);
return `self._ref_stream.tell()` read back after the seeks. -/
def seek (w : StreamWrapper) (offset whence : Int) :
    Except IOErr Int × StreamWrapper :=
  if w.closed then (.error .valueError, w)
  else if ¬ w.st.canSeek then (.error (.unsupported "seek"), w)
  else
    let gw := translateWhence whence
    let p1 := if w.readable then w.st.seekRaw offset gw true else (.ok (), w.st)
    match p1.1 with
    | .error e => (.error e, { w with st := p1.2 })
    | .ok _ =>
      let p2 := if w.writable then p1.2.seekRaw offset gw false
                else (.ok (), p1.2)
      match p2.1 with
      | .error e => (.error e, { w with st := p2.2 })
      | .ok _ => (.ok (p2.2.pos : Int), { w with st := p2.2 })

/-- `truncate(size)`: closed check; requires an output view that can
truncate, else `io.UnsupportedOperation('truncate')`; a missing size
defaults to the output view's current position; returns the size used. -/
def truncate (w : StreamWrapper) (size : Option Nat) :
    Except IOErr Nat × StreamWrapper :=
  if w.closed then (.error .valueError, w)
  else if ¬ w.writable ∨ ¬ w.st.canTruncate then
    (.error (.unsupported "truncate"), w)
  else
    let sz := match size with
      | none => w.st.pos
      | some s => s
    (.ok sz, { w with st := w.st.truncateRaw sz })

/-- `write(b)`: closed and writable checks; `None` and `b''` return `0`
with no provider call; otherwise one `write_bytes` call passing all of
`b`, returning the provider's count. -/
def write (w : StreamWrapper) (b : Option (List Nat)) :
    Except IOErr Nat × StreamWrapper :=
  if w.closed then (.error .valueError, w)
  else if ¬ w.writable then (.error (.unsupported "write"), w)
  else if b = none ∨ b = some [] then (.ok 0, w)
  else
    let p := w.st.write_bytes (b.getD [])
    (.ok p.1, { w with st := p.2 })

end StreamWrapper

/-!
The boundary `open` function of `src/gio_pyio/__init__.py`.

The target `Gio.File` is modelled by the queries `open` performs on it
(`peek_path`, `query_file_type`, `query_exists`) plus the data the
buffer-size probe needs; the concrete opener calls
(`create_readwrite`, `replace`, …) are recorded symbolically.  The result
value describes the layering of wrappers `open` builds; alongside the
result, `gioOpen` reports how many resource handles were opened
(`io.FileIO` or one of the Gio openers) before returning or raising.
-/

/-- The model of the `Gio.File` argument of `open`. -/
structure GFile where
  path : Option String
  fileExists : Bool
  isDirectory : Bool
  blksize : Option Nat
  streamHasFd : Bool
  deriving DecidableEq, Repr

/-- The mode flags `open` derives from its mode string. -/
structure ModeFlags where
  creating : Bool
  reading : Bool
  writing : Bool
  appending : Bool
  updating : Bool
  binary : Bool
  deriving DecidableEq, Repr

/-- Which provider call `open` resolves to for a non-native file. -/
inductive GioOpener where
  | createReadwrite : GioOpener
  | replaceReadwrite : GioOpener
  | openReadwrite : GioOpener
  | createOnly : GioOpener
  | readOnly : GioOpener
  | replaceOnly : GioOpener
  | appendTo : GioOpener
  deriving DecidableEq, Repr

/-- Which buffered wrapper class `open` chooses. -/
inductive BufKind where
  | random : BufKind
  | reader : BufKind
  | writer : BufKind
  deriving DecidableEq, Repr

/-- The file-like object `open` returns, as the layering it builds:
a native `io.FileIO`, a `StreamWrapper` over the resolved Gio opener,
optionally wrapped in a buffered class, optionally wrapped in a
`TextIOWrapper`. -/
inductive FileLike where
  | nativeFile (path : String) (mode : List Char) : FileLike
  | wrappedStream (opener : GioOpener) : FileLike
  | buffered (k : BufKind) (inner : FileLike) (bufsize : Nat) : FileLike
  | textWrapper (inner : FileLike) (encoding errs newline : Option String)
      (lineBuffering : Bool) : FileLike
  deriving DecidableEq, Repr

/-- The characters `open` accepts in a mode string. -/
def allowedModeChars : List Char := ['a', 'x', 'r', 'w', 'b', '+', 't']

/-- The argument-validation prefix of `open` (lines 404–434): mode-string
well-formedness (allowed characters, no duplicates), binary/text
exclusivity, exactly one of create/read/write/append, and the
binary-mode bans on `encoding`, `errors` and `newline`. -/
def parseMode (mode : List Char) (encoding errs newline : Option String) :
    Except IOErr ModeFlags :=
  if ¬ (mode.all (fun c => c ∈ allowedModeChars) ∧ mode.Nodup) then
    .error .valueError
  else
    let fl : ModeFlags :=
      { creating := decide ('x' ∈ mode)
        reading := decide ('r' ∈ mode)
        writing := decide ('w' ∈ mode)
        appending := decide ('a' ∈ mode)
        updating := decide ('+' ∈ mode)
        binary := decide ('b' ∈ mode) }
    if fl.binary ∧ 't' ∈ mode then .error .valueError
    else if 1 < fl.creating.toNat + fl.reading.toNat + fl.writing.toNat
              + fl.appending.toNat then .error .valueError
    else if ¬ (fl.creating ∨ fl.reading ∨ fl.writing ∨ fl.appending) then
      .error .valueError
    else if fl.binary ∧ encoding.isSome then .error .valueError
    else if fl.binary ∧ errs.isSome then .error .valueError
    else if fl.binary ∧ newline.isSome then .error .valueError
    else .ok fl

/-- The file-level checks of `open` (lines 438–447): directory target,
already-exists on exclusive create, not-found on read. -/
def checkFile (f : GFile) (fl : ModeFlags) : Except IOErr Unit :=
  if f.isDirectory then .error (.osError 21)
  else if f.fileExists then
    (if fl.creating then .error (.osError 17) else .ok ())
  else if fl.reading then .error (.osError 2)
  else .ok ()

/-- The opener resolution of `open` (lines 457–474). -/
def chooseOpener (fl : ModeFlags) : GioOpener :=
  if fl.updating then
    if fl.creating then .createReadwrite
    else if fl.writing then .replaceReadwrite
    else .openReadwrite
  else
    if fl.creating then .createOnly
    else if fl.reading then .readOnly
    else if fl.writing then .replaceOnly
    else .appendTo

/-- The handle creation of `open` (lines 451–479): a native `io.FileIO`
when requested and a local path exists, else the resolved Gio opener
wrapped in a `StreamWrapper`. -/
def makeHandle (f : GFile) (fl : ModeFlags) (mode : List Char) (native : Bool) :
    FileLike :=
  match (if native then f.path else none) with
  | some p => .nativeFile p mode
  | none => .wrappedStream (chooseOpener fl)

/-- The block-size probe `os.fstat(file_like.fileno()).st_blksize`
(lines 487–493).  For a `StreamWrapper` the `fileno` call reaches
`get_fd()` unconditionally (the tuple test is vacuous) and raises
`AttributeError` when the stream has no descriptor, which the probe's
`except (OSError, AttributeError)` swallows — modelled as `none`. -/
def probeBlksize (f : GFile) (fl : FileLike) : Option Nat :=
  match fl with
  | .nativeFile _ _ => f.blksize
  | .wrappedStream _ => if f.streamHasFd then f.blksize else none
  | _ => none

/-- The wrapping stage of `open` (lines 480–506): unless buffering is 0,
turn `1` into line buffering with the heuristic size, resolve negative
buffering through the block-size probe with `io.DEFAULT_BUFFER_SIZE` as
fallback, and wrap in the buffered class chosen by the mode; in text mode
additionally wrap in a `TextIOWrapper` carrying the line-buffering flag. -/
def wrapLayers (f : GFile) (fl0 : FileLike) (flags : ModeFlags) (buffering : Int)
    (encoding errs newline : Option String) : FileLike :=
  let lineBuffering := if buffering = 1 then true else false
  let fl1 :=
    if buffering = 0 then fl0
    else
      let b1 : Int := if buffering = 1 then -1 else buffering
      let bufsize : Nat :=
        if b1 < 0 then
          match probeBlksize f fl0 with
          | some bs => if 1 < bs then bs else DEFAULT_BUFFER_SIZE
          | none => DEFAULT_BUFFER_SIZE
        else b1.toNat
      let k := if flags.updating then BufKind.random
               else if flags.reading then BufKind.reader
               else BufKind.writer
      FileLike.buffered k fl0 bufsize
  if ¬ flags.binary then
    FileLike.textWrapper fl1 encoding errs newline lineBuffering
  else fl1

/-- The boundary `open` function.  The second component counts the
resource handles opened before the function returned or raised: every
validation failure, including the `buffering == 0` text-mode check that
sits after the file-level checks and before the handle creation
(line 448), reports `0`. -/
def gioOpen (f : GFile) (mode : List Char) (buffering : Int)
    (encoding errs newline : Option String) (native : Bool) :
    Except IOErr FileLike × Nat :=
  match parseMode mode encoding errs newline with
  | .error e => (.error e, 0)
  | .ok flags =>
    match checkFile f flags with
    | .error e => (.error e, 0)
    | .ok _ =>
      if buffering = 0 ∧ ¬ flags.binary then (.error .valueError, 0)
      else
        (.ok (wrapLayers f (makeHandle f flags mode native) flags buffering
                encoding errs newline), 1)

/-!
Concrete fixtures used by counterexamples and witnesses.
-/

/-- The 20-byte resource `bytes(range(20))` of the spec's read-size
contract. -/
def l20 : List Nat :=
  [0, 1, 2, 3, 4, 5, 6, 7, 8, 9, 10, 11, 12, 13, 14, 15, 16, 17, 18, 19]

/-- A plain open, seekable input stream over `l20` whose total size is
known via `get_size`, with no configured buffer and no descriptor. -/
def plainStream : GioStream :=
  { data := l20, pos := 0, closed := false, bufferSize := none
    hasGetSize := true, hasQueryInfo := false, canSeek := true
    canTruncate := false, hasGetFd := false, fd := 0
    readLog := [], writeCalls := 0, seekLogIn := [], seekLogOut := [] }

/-- A read-only adapter over `plainStream`. -/
def plainAdapter : StreamWrapper := ⟨.input, plainStream⟩

/-- An adapter whose input stream is a `Gio.BufferedInputStream` with a
configured buffer size of 16 bytes, over the same 20-byte resource. -/
def bufAdapter : StreamWrapper :=
  ⟨.input, { plainStream with bufferSize := some 16 }⟩

/-- An adapter whose position was seeked past the end of the 20-byte
resource (`get_size` reports 20, the position is 25). -/
def pastEndAdapter : StreamWrapper :=
  ⟨.input, { plainStream with pos := 25 }⟩

/-- An open adapter whose reference stream exposes `get_fd`, with
descriptor 7. -/
def fdAdapter : StreamWrapper :=
  ⟨.input, { plainStream with hasGetFd := true, fd := 7 }⟩

/-- A combined read/write adapter over the 20-byte resource. -/
def rwAdapter : StreamWrapper := ⟨.ioPair, plainStream⟩

/-- A write-only adapter over an initially empty resource. -/
def writeAdapter : StreamWrapper :=
  ⟨.output, { plainStream with data := [], canTruncate := true }⟩

/-- An existing, non-directory file with no local path and a descriptor-
less stream, for exercising the non-native `open` path. -/
def gFileNoPath : GFile :=
  { path := none, fileExists := true, isDirectory := false
    blksize := some 4096, streamHasFd := false }

/-- The mode flags of plain-text read mode `'r'`. -/
def flagsR : ModeFlags :=
  { creating := false, reading := true, writing := false
    appending := false, updating := false, binary := false }

/-- A read-only adapter positioned 2 bytes before the end of the 20-byte
resource, for the `readinto` under-fill scenario. -/
def underfillAdapter : StreamWrapper := ⟨.input, { plainStream with pos := 18 }⟩

/-- A pre-allocated 10-byte buffer filled with the sentinel byte 55. -/
def tenBuf : List Nat := [55, 55, 55, 55, 55, 55, 55, 55, 55, 55]

/-!
Helper lemmas.
-/

/-- The accumulation loop of `read` terminates and returns everything from
the current position to end of stream, whenever `def_bufsize` is positive
(the wrapper always passes `io.DEFAULT_BUFFER_SIZE` or a positive plan):
the fuel `remaining + 1` used by `readFrom` always suffices, so the `none`
branch of `readFrom` is unreachable. -/
theorem readLoopF_spec : ∀ (fuel : Nat) (st : GioStream) (result : List Nat)
    (bufsize def_bufsize : Nat),
    st.data.length - st.pos < fuel → 0 < def_bufsize →
    ∃ st2, StreamWrapper.readLoopF fuel st result bufsize def_bufsize =
        some (result ++ st.data.drop st.pos, st2)
      ∧ st2.data = st.data ∧ st2.pos = max st.pos st.data.length
      ∧ st2.closed = st.closed ∧ st2.bufferSize = st.bufferSize
      ∧ st2.hasGetSize = st.hasGetSize ∧ st2.hasQueryInfo = st.hasQueryInfo := by
  intro fuel
  induction fuel with
  | zero => intro st result bufsize def_bufsize h _; omega
  | succ f ih =>
    intro st result bufsize def_bufsize h hdef
    have hlt : result.length <
        (if bufsize ≤ result.length
         then result.length + max result.length def_bufsize else bufsize) := by
      split <;> omega
    set bufsize1 :=
      if bufsize ≤ result.length
      then result.length + max result.length def_bufsize else bufsize with hb1
    set n := bufsize1 - result.length with hn
    have hnpos : 0 < n := by omega
    have hchlen : ((st.data.drop st.pos).take n).length
        = min n (st.data.length - st.pos) := by
      simp [List.length_take, List.length_drop]
    by_cases hempty : (st.data.drop st.pos).take n = []
    · have hdl : st.data.length ≤ st.pos := by
        have := hchlen
        rw [hempty] at this
        simp at this
        omega
      have hdrop : st.data.drop st.pos = [] := by
        apply List.eq_nil_of_length_eq_zero
        simp [List.length_drop]
        omega
      refine ⟨{ st with pos := st.pos, readLog := st.readLog ++ [n] }, ?_⟩
      rw [StreamWrapper.readLoopF]
      simp only [← hb1, ← hn, GioStream.read_bytes]
      rw [if_pos hempty]
      simp [hempty, hdrop, Nat.max_eq_left hdl]
    · rw [StreamWrapper.readLoopF]
      simp only [← hb1, ← hn, GioStream.read_bytes]
      rw [if_neg hempty]
      have hpos_lt : st.pos < st.data.length := by
        by_contra hge
        exact hempty (by
          apply List.eq_nil_of_length_eq_zero
          rw [hchlen]
          omega)
      have hchpos : 0 < ((st.data.drop st.pos).take n).length := by
        rcases Nat.eq_zero_or_pos ((st.data.drop st.pos).take n).length with h0 | h0
        · exact absurd (List.eq_nil_of_length_eq_zero h0) hempty
        · exact h0
      obtain ⟨st2, heq, hd2, hp2, hc2, hb2, hg2, hq2⟩ :=
        ih { st with
              pos := st.pos + ((st.data.drop st.pos).take n).length,
              readLog := st.readLog ++ [n] }
           (result ++ (st.data.drop st.pos).take n) bufsize1 def_bufsize
           (by simp; omega) hdef
      refine ⟨st2, ?_, by simpa using hd2, ?_, by simpa using hc2,
        by simpa using hb2, by simpa using hg2, by simpa using hq2⟩
      · rw [heq]
        have hch_le : ((st.data.drop st.pos).take n).length ≤ st.data.length - st.pos := by
          rw [hchlen]; omega
        have : (st.data.drop st.pos).take n
            ++ st.data.drop (st.pos + ((st.data.drop st.pos).take n).length)
            = st.data.drop st.pos := by
          have hdd : st.data.drop (st.pos + ((st.data.drop st.pos).take n).length)
              = (st.data.drop st.pos).drop ((st.data.drop st.pos).take n).length := by
            rw [List.drop_drop]
          rw [hdd]
          have := List.take_append_drop n (st.data.drop st.pos)
          calc (st.data.drop st.pos).take n
                ++ (st.data.drop st.pos).drop ((st.data.drop st.pos).take n).length
              = (st.data.drop st.pos).take n
                ++ (st.data.drop st.pos).drop n := by
                congr 1
                rw [hchlen]
                rcases Nat.le_total n (st.data.length - st.pos) with hle | hle
                · rw [Nat.min_eq_left hle]
                · rw [Nat.min_eq_right hle]
                  have h1 : (st.data.drop st.pos).drop (st.data.length - st.pos) = [] := by
                    apply List.eq_nil_of_length_eq_zero
                    simp [List.length_drop]
                    omega
                  have h2 : (st.data.drop st.pos).drop n = [] := by
                    apply List.eq_nil_of_length_eq_zero
                    simp [List.length_drop]
                    omega
                  rw [h1, h2]
            _ = st.data.drop st.pos := this
        rw [List.append_assoc, this]
      · rw [hp2]
        simp
        omega

/-- `read` leaves the capability shape unchanged. -/
theorem read_kind_eq (w : StreamWrapper) (size : Int) :
    (w.read size).2.kind = w.kind := by
  unfold StreamWrapper.read StreamWrapper.readFrom
  dsimp only
  repeat' split
  all_goals rfl

/-- `write` leaves the capability shape unchanged. -/
theorem write_kind_eq (w : StreamWrapper) (b : Option (List Nat)) :
    (w.write b).2.kind = w.kind := by
  unfold StreamWrapper.write
  dsimp only
  repeat' split
  all_goals rfl

/-- `seek` leaves the capability shape unchanged. -/
theorem seek_kind_eq (w : StreamWrapper) (offset whence : Int) :
    (w.seek offset whence).2.kind = w.kind := by
  unfold StreamWrapper.seek
  dsimp only
  repeat' split
  all_goals rfl

/-- `readinto` leaves the capability shape unchanged. -/
theorem readinto_kind_eq (w : StreamWrapper) (b : List Nat) :
    (w.readinto b).2.2.kind = w.kind := by
  unfold StreamWrapper.readinto
  dsimp only
  repeat' split
  all_goals rfl

/-- `truncate` leaves the capability shape unchanged. -/
theorem truncate_kind_eq (w : StreamWrapper) (s : Option Nat) :
    (w.truncate s).2.kind = w.kind := by
  unfold StreamWrapper.truncate
  dsimp only
  repeat' split
  all_goals rfl

/-- `flush` leaves the capability shape unchanged. -/
theorem flush_kind_eq (w : StreamWrapper) : (w.flush).2.kind = w.kind := by
  unfold StreamWrapper.flush
  split <;> rfl

/-- `close` leaves the capability shape unchanged. -/
theorem close_kind_eq (w : StreamWrapper) : w.close.kind = w.kind := by
  unfold StreamWrapper.close
  dsimp only
  repeat' split
  all_goals rfl

/-- `readable` and `writable` only look at the capability shape. -/
theorem readable_writable_of_kind_eq {w2 w : StreamWrapper}
    (h : w2.kind = w.kind) :
    w2.readable = w.readable ∧ w2.writable = w.writable := by
  unfold StreamWrapper.readable StreamWrapper.writable
  rw [h]
  exact ⟨rfl, rfl⟩

/-- `close` marks the shared state closed and changes nothing else. -/
theorem close_eq (w : StreamWrapper) :
    w.close = ⟨w.kind, { w.st with closed := true }⟩ := by
  obtain ⟨kind, st⟩ := w
  cases kind <;>
    simp [StreamWrapper.close, StreamWrapper.readable, StreamWrapper.writable,
      GioStream.closeStream]

/-- An underlying seek appends exactly one entry to the log of the view it
was issued against, whether or not it succeeds, and touches neither the
data nor the closed flag nor the seek capability. -/
theorem seekRaw_state (s : GioStream) (offset : Int) (gw : Nat) (b : Bool) :
    (s.seekRaw offset gw b).2.seekLogIn
      = s.seekLogIn ++ (if b then [(offset, gw)] else [])
    ∧ (s.seekRaw offset gw b).2.seekLogOut
      = s.seekLogOut ++ (if b then [] else [(offset, gw)])
    ∧ (s.seekRaw offset gw b).2.data = s.data
    ∧ (s.seekRaw offset gw b).2.closed = s.closed
    ∧ (s.seekRaw offset gw b).2.canSeek = s.canSeek := by
  unfold GioStream.seekRaw
  dsimp only
  cases b <;> split_ifs <;> simp

/-- `parseMode` computes the binary flag from membership of `'b'`. -/
theorem parseMode_binary {mode : List Char} {e r n : Option String}
    {flags : ModeFlags} (hp : parseMode mode e r n = .ok flags) :
    flags.binary = decide ('b' ∈ mode) := by
  unfold parseMode at hp
  dsimp only at hp
  split_ifs at hp
  all_goals injection hp with hp2
  subst hp2
  rfl

/-- In binary mode the wrapping stage treats buffering `1` exactly as the
heuristic default `-1`: the line-buffering flag it sets is consumed only
by the text wrapper, which binary mode never installs. -/
theorem wrapLayers_one_eq_default (f : GFile) (fl0 : FileLike)
    (flags : ModeFlags) (e r n : Option String) (hb : flags.binary = true) :
    wrapLayers f fl0 flags 1 e r n = wrapLayers f fl0 flags (-1) e r n := by
  simp [wrapLayers, hb]


/-- `readFrom` returns everything from the current position to end of
stream whenever `def_bufsize` is positive (the fuel of the modelled
`while True` loop never runs out, by `readLoopF_spec`). -/
theorem readFrom_spec (w : StreamWrapper) (bufsize def_bufsize : Nat)
    (hdef : 0 < def_bufsize) :
    ∃ st2, w.readFrom bufsize def_bufsize
        = (.ok (w.st.data.drop w.st.pos), { w with st := st2 })
      ∧ st2.data = w.st.data ∧ st2.pos = max w.st.pos w.st.data.length
      ∧ st2.closed = w.st.closed ∧ st2.bufferSize = w.st.bufferSize
      ∧ st2.hasGetSize = w.st.hasGetSize
      ∧ st2.hasQueryInfo = w.st.hasQueryInfo := by
  obtain ⟨st2, heq, hfields⟩ :=
    readLoopF_spec (w.st.data.length - w.st.pos + 1) w.st [] bufsize def_bufsize
      (by omega) hdef
  refine ⟨st2, ?_, hfields⟩
  rw [StreamWrapper.readFrom, heq]
  simp

/-- The `size > 0` branch of `read`: one `read_bytes(size)` request, whose
chunk is returned as is. -/
theorem read_pos_spec (w : StreamWrapper) (size : Int) (hc : w.closed = false)
    (hr : w.readable = true) (hs : 0 < size) :
    w.read size =
      (.ok ((w.st.data.drop w.st.pos).take size.toNat),
       { w with st := { w.st with
           pos := w.st.pos + ((w.st.data.drop w.st.pos).take size.toNat).length,
           readLog := w.st.readLog ++ [size.toNat] } }) := by
  have h0 : ¬ (size = 0) := by omega
  simp [StreamWrapper.read, hc, hr, h0, hs, GioStream.read_bytes]

/-- The `size < 0` branch of `read` on an adapter whose input view has no
configured buffer size and whose position is within the stream: the full
remainder is accumulated and returned, and the position ends at
end-of-stream.  (The `Gio.BufferedInputStream` branch instead dies on the
unbound local `bufsize`; see `c4_read_unbound_local`.) -/
theorem read_neg_spec (w : StreamWrapper) (size : Int) (hc : w.closed = false)
    (hr : w.readable = true) (hb : w.st.bufferSize = none)
    (hpos : w.st.pos ≤ w.st.data.length) (hs : size < 0) :
    ∃ st2, w.read size = (.ok (w.st.data.drop w.st.pos), { w with st := st2 })
      ∧ st2.data = w.st.data ∧ st2.pos = w.st.data.length
      ∧ st2.closed = false ∧ st2.bufferSize = none
      ∧ st2.hasGetSize = w.st.hasGetSize
      ∧ st2.hasQueryInfo = w.st.hasQueryInfo := by
  have h0 : ¬ (size = 0) := by omega
  have hs0 : ¬ (0 < size) := by omega
  have hread : w.read size =
      (match (if w.st.hasGetSize then some w.st.data.length
              else if w.st.hasQueryInfo then some w.st.data.length
              else none : Option Nat) with
       | some e =>
         if w.st.pos ≤ e then w.readFrom (e - w.st.pos + 1) DEFAULT_BUFFER_SIZE
         else (.error (.unboundLocal "bufsize"), w)
       | none => w.readFrom DEFAULT_BUFFER_SIZE DEFAULT_BUFFER_SIZE) := by
    rw [StreamWrapper.read, if_neg (by simp [hc]), if_neg (by simp [hr]),
      if_neg h0, if_neg hs0, hb]
  have hdef : 0 < DEFAULT_BUFFER_SIZE := by
    rw [DEFAULT_BUFFER_SIZE]; omega
  by_cases hgs : w.st.hasGetSize = true
  · rw [if_pos hgs] at hread
    dsimp only at hread
    rw [if_pos hpos] at hread
    obtain ⟨st2, heq, hd, hp, hcl, hbs, hhg, hhq⟩ :=
      readFrom_spec w (w.st.data.length - w.st.pos + 1) DEFAULT_BUFFER_SIZE hdef
    exact ⟨st2, by rw [hread, heq], hd, by omega, by rw [hcl]; exact hc, by rw [hbs, hb],
      hhg, hhq⟩
  · rw [if_neg hgs] at hread
    by_cases hqi : w.st.hasQueryInfo = true
    · rw [if_pos hqi] at hread
      dsimp only at hread
      rw [if_pos hpos] at hread
      obtain ⟨st2, heq, hd, hp, hcl, hbs, hhg, hhq⟩ :=
        readFrom_spec w (w.st.data.length - w.st.pos + 1) DEFAULT_BUFFER_SIZE hdef
      exact ⟨st2, by rw [hread, heq], hd, by omega, by rw [hcl]; exact hc, by rw [hbs, hb],
        hhg, hhq⟩
    · rw [if_neg hqi] at hread
      dsimp only at hread
      obtain ⟨st2, heq, hd, hp, hcl, hbs, hhg, hhq⟩ :=
        readFrom_spec w DEFAULT_BUFFER_SIZE DEFAULT_BUFFER_SIZE hdef
      exact ⟨st2, by rw [hread, heq], hd, by omega, by rw [hcl]; exact hc, by rw [hbs, hb],
        hhg, hhq⟩

/-- Packaged form of `read_pos_spec` for stepping through call chains:
the successor state is exposed as an opaque witness with its fields
related to the starting state. -/
theorem read_pos_step (w : StreamWrapper) (size : Int) (hc : w.closed = false)
    (hr : w.readable = true) (hs : 0 < size) :
    ∃ st2, w.read size =
        (.ok ((w.st.data.drop w.st.pos).take size.toNat), { w with st := st2 })
      ∧ st2.data = w.st.data
      ∧ st2.pos = w.st.pos + ((w.st.data.drop w.st.pos).take size.toNat).length
      ∧ st2.closed = w.st.closed ∧ st2.bufferSize = w.st.bufferSize
      ∧ st2.hasGetSize = w.st.hasGetSize ∧ st2.hasQueryInfo = w.st.hasQueryInfo :=
  ⟨_, read_pos_spec w size hc hr hs, rfl, rfl, rfl, rfl, rfl, rfl⟩

/-!
Claims.
-/

/-- **C1** (counterexample).  The claim quantifies over every open,
readable adapter over the 20-byte resource, but on an adapter whose input
stream is a `Gio.BufferedInputStream` the final `read(-1)` does not return
the remaining 10 bytes: the chunk-size determination assigns only
`def_bufsize` in that branch, and the loop's first use of the local
`bufsize` raises `UnboundLocalError`. -/
theorem c1_counterexample :
    (((bufAdapter.read 5).2.read 5).2.read (-1)).1
        = .error (.unboundLocal "bufsize")
    ∧ (((bufAdapter.read 5).2.read 5).2.read (-1)).1
        ≠ .ok [10, 11, 12, 13, 14, 15, 16, 17, 18, 19] := by
  constructor
  · rfl
  · intro hcontra
    rw [show (((bufAdapter.read 5).2.read 5).2.read (-1)).1
        = .error (.unboundLocal "bufsize") from rfl] at hcontra
    cases hcontra

/-- **C1** (amended).  For every open, readable adapter over the 20-byte
resource `0..19` at position 0 *whose input view does not expose a
configured buffer size*: `read(5)` returns the first 5 bytes, a second
`read(5)` the next 5, `read(-1)` the remaining 10 accumulated until
end-of-stream, and a further `read(-1)` at end-of-stream returns the empty
sequence.  And for every open, readable adapter and every `size > 0`,
`read(size)` issues exactly one underlying read request for `size` bytes
(the ghost `readLog` grows by exactly `[size]`) and returns exactly the
chunk that request yields, even when shorter than `size`. -/
theorem c1_read_contract :
    (∀ w : StreamWrapper, w.closed = false → w.readable = true →
      w.st.bufferSize = none → w.st.data = l20 → w.st.pos = 0 →
      (w.read 5).1 = .ok [0, 1, 2, 3, 4]
      ∧ ((w.read 5).2.read 5).1 = .ok [5, 6, 7, 8, 9]
      ∧ (((w.read 5).2.read 5).2.read (-1)).1
          = .ok [10, 11, 12, 13, 14, 15, 16, 17, 18, 19]
      ∧ ((((w.read 5).2.read 5).2.read (-1)).2.read (-1)).1 = .ok [])
    ∧ (∀ (w : StreamWrapper) (size : Int), w.closed = false →
      w.readable = true → 0 < size →
      w.read size =
        (.ok ((w.st.data.drop w.st.pos).take size.toNat),
         { w with st := { w.st with
             pos := w.st.pos
               + ((w.st.data.drop w.st.pos).take size.toNat).length,
             readLog := w.st.readLog ++ [size.toNat] } })) := by
  constructor
  · intro w hc hr hb hd hp
    obtain ⟨s1, e1, d1, p1, c1, b1, g1, q1⟩ := read_pos_step w 5 hc hr (by decide)
    have hd1 : s1.data = l20 := by rw [d1, hd]
    have hp1 : s1.pos = 5 := by rw [p1, hp, hd]; decide
    have hc1 : s1.closed = false := by rw [c1]; exact hc
    have hb1 : s1.bufferSize = none := by rw [b1]; exact hb
    obtain ⟨s2, e2, d2, p2, c2, b2, g2, q2⟩ :=
      read_pos_step (⟨w.kind, s1⟩ : StreamWrapper) 5 hc1 hr (by decide)
    have hd2 : s2.data = l20 := by rw [d2]; exact hd1
    have hp2 : s2.pos = 10 := by rw [p2]; dsimp only; rw [hp1, hd1]; decide
    have hc2 : s2.closed = false := by rw [c2]; exact hc1
    have hb2 : s2.bufferSize = none := by rw [b2]; exact hb1
    obtain ⟨s3, e3, d3, p3, c3, b3, g3, q3⟩ :=
      read_neg_spec (⟨w.kind, s2⟩ : StreamWrapper) (-1) hc2 hr hb2
        (by dsimp only; rw [hp2, hd2]; decide) (by decide)
    have hd3 : s3.data = l20 := by rw [d3]; exact hd2
    have hp3 : s3.pos = 20 := by rw [p3]; dsimp only; rw [hd2]; decide
    obtain ⟨s4, e4, d4, p4, c4, b4, g4, q4⟩ :=
      read_neg_spec (⟨w.kind, s3⟩ : StreamWrapper) (-1) c3 hr b3
        (by dsimp only; rw [hp3, hd3]; decide) (by decide)
    have k1 : ((w.st.data.drop w.st.pos).take (5 : Int).toNat) = [0, 1, 2, 3, 4] := by
      rw [hd, hp]; decide
    have k2 : ((s1.data.drop s1.pos).take (5 : Int).toNat) = [5, 6, 7, 8, 9] := by
      rw [hd1, hp1]; decide
    have k3 : s2.data.drop s2.pos = [10, 11, 12, 13, 14, 15, 16, 17, 18, 19] := by
      rw [hd2, hp2]; decide
    have k4 : s3.data.drop s3.pos = ([] : List Nat) := by
      rw [hd3, hp3]; decide
    refine ⟨?_, ?_, ?_, ?_⟩
    · rw [e1]
      dsimp only
      rw [k1]
    · rw [e1]
      dsimp only
      rw [e2]
      dsimp only
      rw [k2]
    · rw [e1]
      dsimp only
      rw [e2]
      dsimp only
      rw [e3]
      dsimp only
      rw [k3]
    · rw [e1]
      dsimp only
      rw [e2]
      dsimp only
      rw [e3]
      dsimp only
      rw [e4]
      dsimp only
      rw [k4]
  · intro w size hc hr hs
    exact read_pos_spec w size hc hr hs

/-- **C1** (witness): the scenario on the concrete `plainAdapter`, and the
single-request contract at `size = 7`. -/
theorem c1_read_contract_witness :
    ((plainAdapter.read 5).1 = .ok [0, 1, 2, 3, 4]
      ∧ ((plainAdapter.read 5).2.read 5).1 = .ok [5, 6, 7, 8, 9]
      ∧ (((plainAdapter.read 5).2.read 5).2.read (-1)).1
          = .ok [10, 11, 12, 13, 14, 15, 16, 17, 18, 19]
      ∧ ((((plainAdapter.read 5).2.read 5).2.read (-1)).2.read (-1)).1
          = .ok [])
    ∧ plainAdapter.read 7 =
        (.ok ((plainAdapter.st.data.drop plainAdapter.st.pos).take (7 : Int).toNat),
         { plainAdapter with
            st := { plainAdapter.st with
              pos := plainAdapter.st.pos
                + ((plainAdapter.st.data.drop plainAdapter.st.pos).take
                    (7 : Int).toNat).length,
              readLog := plainAdapter.st.readLog ++ [(7 : Int).toNat] } }) :=
  ⟨c1_read_contract.1 plainAdapter rfl rfl rfl rfl rfl,
   c1_read_contract.2 plainAdapter 7 rfl rfl (by decide)⟩

/-- **C2**.  For every `seek(offset, whence)` call that returns
successfully: the underlying seek was issued with the translated whence —
`0` and `1` are swapped before being passed on, `2` passes through — to
the input view exactly when the adapter is readable and to the output view
exactly when it is writable, and the returned value is the absolute
position read back from the reference handle after the seeks, not the
requested target. -/
theorem c2_seek_contract (w : StreamWrapper) (offset whence nn : Int)
    (h : (w.seek offset whence).1 = .ok nn) :
    (w.seek offset whence).2.st.seekLogIn
      = w.st.seekLogIn
        ++ (if w.readable then [(offset, StreamWrapper.translateWhence whence)]
            else [])
    ∧ (w.seek offset whence).2.st.seekLogOut
      = w.st.seekLogOut
        ++ (if w.writable then [(offset, StreamWrapper.translateWhence whence)]
            else [])
    ∧ nn = ((w.seek offset whence).2.st.pos : Int)
    ∧ StreamWrapper.translateWhence 0 = 1
    ∧ StreamWrapper.translateWhence 1 = 0
    ∧ StreamWrapper.translateWhence 2 = 2 := by
  by_cases hc : w.closed = true
  · rw [StreamWrapper.seek, if_pos hc] at h
    exact absurd h (by simp)
  by_cases hsk : w.st.canSeek = true
  case neg =>
    rw [StreamWrapper.seek, if_neg hc, if_pos (by simpa using hsk)] at h
    exact absurd h (by simp)
  have hseek : w.seek offset whence =
      (let p1 := if w.readable
          then w.st.seekRaw offset (StreamWrapper.translateWhence whence) true
          else (.ok (), w.st)
       match p1.1 with
       | .error e => (.error e, { w with st := p1.2 })
       | .ok _ =>
         let p2 := if w.writable
             then p1.2.seekRaw offset (StreamWrapper.translateWhence whence) false
             else (.ok (), p1.2)
         match p2.1 with
         | .error e => (.error e, { w with st := p2.2 })
         | .ok _ => (.ok (p2.2.pos : Int), { w with st := p2.2 })) := by
    rw [StreamWrapper.seek, if_neg hc, if_neg (by simp [hsk])]
  rw [hseek] at h ⊢
  clear hseek
  dsimp only at h ⊢
  generalize hp1 : (if w.readable = true
      then w.st.seekRaw offset (StreamWrapper.translateWhence whence) true
      else (.ok (), w.st)) = p1 at h ⊢
  obtain ⟨p1f, p1s⟩ := p1
  have h1s : p1s.seekLogIn
        = w.st.seekLogIn
          ++ (if w.readable then [(offset, StreamWrapper.translateWhence whence)]
              else [])
      ∧ p1s.seekLogOut = w.st.seekLogOut := by
    by_cases hr : w.readable = true
    · rw [if_pos hr] at hp1
      have hst := seekRaw_state w.st offset (StreamWrapper.translateWhence whence) true
      rw [hp1] at hst
      exact ⟨by rw [hst.1]; simp [hr], by rw [hst.2.1]; simp⟩
    · rw [if_neg hr] at hp1
      injection hp1 with hpf hps
      rw [← hps]
      simp [hr]
  cases p1f with
  | error e => exact absurd h (by simp)
  | ok u =>
    dsimp only at h ⊢
    generalize hp2 : (if w.writable = true
        then p1s.seekRaw offset (StreamWrapper.translateWhence whence) false
        else (.ok (), p1s)) = p2 at h ⊢
    obtain ⟨p2f, p2s⟩ := p2
    have h2s : p2s.seekLogIn = p1s.seekLogIn
        ∧ p2s.seekLogOut
          = p1s.seekLogOut
            ++ (if w.writable then [(offset, StreamWrapper.translateWhence whence)]
                else []) := by
      by_cases hw : w.writable = true
      · rw [if_pos hw] at hp2
        have hst := seekRaw_state p1s offset (StreamWrapper.translateWhence whence) false
        rw [hp2] at hst
        exact ⟨by rw [hst.1]; simp, by rw [hst.2.1]; simp [hw]⟩
      · rw [if_neg hw] at hp2
        injection hp2 with hpf hps
        rw [← hps]
        simp [hw]
    cases p2f with
    | error e => exact absurd h (by simp)
    | ok v =>
      dsimp only at h ⊢
      have hnn : (p2s.pos : Int) = nn := by simpa using h
      exact ⟨by rw [h2s.1, h1s.1], by rw [h2s.2, h1s.2], hnn.symm, rfl, rfl, rfl⟩

/-- **C2** (witness): a combined read/write adapter over 20 bytes,
`seek(3, 0)`.  The translated whence is the provider's from-start code
`1`, it is issued to both views, and the reported position `3` is the
position read back afterwards. -/
theorem c2_seek_contract_witness :
    (rwAdapter.seek 3 0).2.st.seekLogIn
      = rwAdapter.st.seekLogIn
        ++ (if rwAdapter.readable then [((3 : Int), StreamWrapper.translateWhence 0)]
            else [])
    ∧ (rwAdapter.seek 3 0).2.st.seekLogOut
      = rwAdapter.st.seekLogOut
        ++ (if rwAdapter.writable then [((3 : Int), StreamWrapper.translateWhence 0)]
            else [])
    ∧ (3 : Int) = ((rwAdapter.seek 3 0).2.st.pos : Int)
    ∧ StreamWrapper.translateWhence 0 = 1
    ∧ StreamWrapper.translateWhence 1 = 0
    ∧ StreamWrapper.translateWhence 2 = 2 :=
  c2_seek_contract rwAdapter 3 0 3 rfl

/-- **C3** (code bug).  `fileno` tests the truthiness of the tuple
`(self._ref_stream, 'get_fd')`, which is always true, so the
unsupported-operation branch is unreachable: on an open adapter whose
reference stream lacks `get_fd` the call raises `AttributeError` from the
unconditional `get_fd()` call instead of `io.UnsupportedOperation`
naming `fileno`; when the accessor exists its descriptor is returned. -/
theorem c3_fileno_bug :
    plainAdapter.fileno = .error (.attributeError "get_fd")
    ∧ fdAdapter.fileno = .ok 7
    ∧ ∀ w : StreamWrapper, w.fileno ≠ .error (.unsupported "fileno") := by
  refine ⟨rfl, rfl, ?_⟩
  intro w
  rw [StreamWrapper.fileno]
  split_ifs <;> simp_all [StreamWrapper.refStreamGetFdTupleTruthy]

/-- **C4** (code bug).  With `size < 0`, when the input stream is a
`Gio.BufferedInputStream` (here: buffer size 16 over the 20-byte resource)
only `def_bufsize` is assigned, and when a size accessor reports a total
size smaller than the current position (here: position 25 past the 20-byte
end) nothing is assigned; in both cases the loop's first use of the local
`bufsize` raises `UnboundLocalError` before any provider read is issued,
leaving the stream state untouched, instead of running the
accumulate-until-EOF loop the docstring promises. -/
theorem c4_read_unbound_local :
    bufAdapter.read (-1) = (.error (.unboundLocal "bufsize"), bufAdapter)
    ∧ pastEndAdapter.read (-1)
        = (.error (.unboundLocal "bufsize"), pastEndAdapter) :=
  ⟨rfl, rfl⟩

/-- **C5**.  Closing is idempotent — a second `close` leaves the adapter
in exactly the state the first one produced — and after `close` the
`closed` property is true and every `read`, `write`, `seek`, `tell`,
`truncate`, `flush` and `fileno` call fails with the closed-resource
error (`ValueError`). -/
theorem c5_close_idempotent (w : StreamWrapper) :
    w.close.close = w.close
    ∧ w.close.closed = true
    ∧ (∀ size, (w.close.read size).1 = .error .valueError)
    ∧ (∀ b, (w.close.write b).1 = .error .valueError)
    ∧ (∀ offset whence, (w.close.seek offset whence).1 = .error .valueError)
    ∧ w.close.tell = .error .valueError
    ∧ (∀ s, (w.close.truncate s).1 = .error .valueError)
    ∧ (w.close.flush).1 = .error .valueError
    ∧ w.close.fileno = .error .valueError := by
  rw [close_eq w]
  refine ⟨?_, rfl, fun size => rfl, fun b => rfl, fun offset whence => rfl,
    rfl, fun s => rfl, rfl, rfl⟩
  rw [close_eq]

/-- **C6**.  Every successfully constructed adapter is readable-only,
writable-only, or both — the shape is the one determined by the handle's
class (input stream, output stream, combined stream; anything else fails
with `TypeError` and produces no adapter) — and no operation ever changes
the `readable`/`writable` capabilities. -/
theorem c6_capability_partition :
    (∀ (obj : GioObject) (w : StreamWrapper), StreamWrapper.init obj = .ok w →
      ((w.readable = true ∧ w.writable = false)
        ∨ (w.readable = false ∧ w.writable = true)
        ∨ (w.readable = true ∧ w.writable = true)))
    ∧ (∀ (obj : GioObject) (w : StreamWrapper), StreamWrapper.init obj = .ok w →
      (match obj with
       | .inputStream _ => w.readable = true ∧ w.writable = false
       | .outputStream _ => w.readable = false ∧ w.writable = true
       | .ioStreamPair _ => w.readable = true ∧ w.writable = true
       | .other _ => False))
    ∧ (∀ descr, StreamWrapper.init (.other descr) = .error .typeError)
    ∧ (∀ w : StreamWrapper,
        (w.close.readable = w.readable ∧ w.close.writable = w.writable)
        ∧ (∀ size, (w.read size).2.readable = w.readable
            ∧ (w.read size).2.writable = w.writable)
        ∧ (∀ b, (w.write b).2.readable = w.readable
            ∧ (w.write b).2.writable = w.writable)
        ∧ (∀ offset whence, (w.seek offset whence).2.readable = w.readable
            ∧ (w.seek offset whence).2.writable = w.writable)
        ∧ (∀ b, (w.readinto b).2.2.readable = w.readable
            ∧ (w.readinto b).2.2.writable = w.writable)
        ∧ (∀ s, (w.truncate s).2.readable = w.readable
            ∧ (w.truncate s).2.writable = w.writable)
        ∧ ((w.flush).2.readable = w.readable
            ∧ (w.flush).2.writable = w.writable)) := by
  refine ⟨?_, ?_, fun descr => rfl, ?_⟩
  · intro obj w h
    cases obj <;> simp only [StreamWrapper.init] at h <;> cases h
    · exact Or.inl ⟨rfl, rfl⟩
    · exact Or.inr (Or.inl ⟨rfl, rfl⟩)
    · exact Or.inr (Or.inr ⟨rfl, rfl⟩)
  · intro obj w h
    cases obj <;> simp only [StreamWrapper.init] at h <;> cases h
    all_goals exact ⟨rfl, rfl⟩
  · intro w
    refine ⟨readable_writable_of_kind_eq (close_kind_eq w),
      fun size => readable_writable_of_kind_eq (read_kind_eq w size),
      fun b => readable_writable_of_kind_eq (write_kind_eq w b),
      fun offset whence => readable_writable_of_kind_eq (seek_kind_eq w offset whence),
      fun b => readable_writable_of_kind_eq (readinto_kind_eq w b),
      fun s => readable_writable_of_kind_eq (truncate_kind_eq w s),
      readable_writable_of_kind_eq (flush_kind_eq w)⟩

/-- **C6** (witness): a constructed input-only adapter is readable and
not writable, in both the partition form and the shape-determined form. -/
theorem c6_capability_partition_witness :
    (((⟨.input, plainStream⟩ : StreamWrapper).readable = true
        ∧ (⟨.input, plainStream⟩ : StreamWrapper).writable = false)
      ∨ ((⟨.input, plainStream⟩ : StreamWrapper).readable = false
        ∧ (⟨.input, plainStream⟩ : StreamWrapper).writable = true)
      ∨ ((⟨.input, plainStream⟩ : StreamWrapper).readable = true
        ∧ (⟨.input, plainStream⟩ : StreamWrapper).writable = true))
    ∧ ((⟨.input, plainStream⟩ : StreamWrapper).readable = true
        ∧ (⟨.input, plainStream⟩ : StreamWrapper).writable = false) :=
  ⟨c6_capability_partition.1 (.inputStream plainStream) ⟨.input, plainStream⟩ rfl,
   c6_capability_partition.2.1 (.inputStream plainStream) ⟨.input, plainStream⟩ rfl⟩

/-- **C7** (counterexample).  The claim says buffering policy `1` in
binary mode raises an argument error before any handle is opened; in fact
the call succeeds: `open` with mode `'rb'` and buffering `1` on an
existing file opens one handle and returns a buffered reader with the
heuristic default buffer size — no error at all. -/
theorem c7_counterexample :
    gioOpen gFileNoPath ['r', 'b'] 1 none none none false
      = (.ok (.buffered .reader (.wrappedStream .readOnly) 8192), 1) := rfl

/-- **C7** (amended).  Buffering policy `0` is legal only in binary mode:
in text mode, once the mode and file validations pass, `open` raises the
argument error (`ValueError`) with zero resource handles opened.
Buffering policy `1` in binary mode, however, is *not* rejected: the call
behaves exactly like the heuristic default policy `-1`, because the
line-buffering flag it sets is consumed only by the text wrapper, which
binary mode never installs. -/
theorem c7_buffering_validation :
    (∀ (f : GFile) (mode : List Char) (encoding errs newline : Option String)
        (native : Bool) (flags : ModeFlags),
      parseMode mode encoding errs newline = .ok flags →
      checkFile f flags = .ok () →
      flags.binary = false →
      gioOpen f mode 0 encoding errs newline native = (.error .valueError, 0))
    ∧ (∀ (f : GFile) (mode : List Char) (encoding errs newline : Option String)
        (native : Bool), 'b' ∈ mode →
      gioOpen f mode 1 encoding errs newline native
        = gioOpen f mode (-1) encoding errs newline native) := by
  constructor
  · intro f mode encoding errs newline native flags hp hf hb
    simp [gioOpen, hp, hf, hb]
  · intro f mode encoding errs newline native hbm
    cases hp : parseMode mode encoding errs newline with
    | error e => simp [gioOpen, hp]
    | ok flags =>
      have hb : flags.binary = true := by
        rw [parseMode_binary hp]
        simpa using hbm
      cases hf : checkFile f flags with
      | error e => simp [gioOpen, hp, hf]
      | ok u =>
        have hw := wrapLayers_one_eq_default f (makeHandle f flags mode native)
          flags encoding errs newline hb
        simp [gioOpen, hp, hf, hb, hw]

/-- **C7** (witness): text-mode `'r'` with buffering 0 on an existing
file raises `ValueError` with no handle opened; binary `'rb'` with
buffering 1 behaves exactly like buffering `-1`. -/
theorem c7_buffering_validation_witness :
    gioOpen gFileNoPath ['r'] 0 none none none false = (.error .valueError, 0)
    ∧ gioOpen gFileNoPath ['r', 'b'] 1 none none none false
        = gioOpen gFileNoPath ['r', 'b'] (-1) none none none false :=
  ⟨c7_buffering_validation.1 gFileNoPath ['r'] none none none false flagsR
      rfl rfl rfl,
   c7_buffering_validation.2 gFileNoPath ['r', 'b'] none none none false
      (by decide)⟩

/-- **C8**.  Zero-length fast paths: on an open, writable adapter,
`write(None)` and `write(b'')` return 0 without touching the stream; on
an open, readable adapter, `read(0)` returns the empty sequence without
touching the stream.  The returned adapter is the very same state, so in
particular the ghost call counters are unchanged: no provider write or
read was invoked. -/
theorem c8_zero_length_fast_paths :
    (∀ w : StreamWrapper, w.closed = false → w.writable = true →
      w.write none = (.ok 0, w) ∧ w.write (some []) = (.ok 0, w))
    ∧ (∀ w : StreamWrapper, w.closed = false → w.readable = true →
      w.read 0 = (.ok [], w)) := by
  constructor
  · intro w hc hw
    constructor <;> simp [StreamWrapper.write, hc, hw]
  · intro w hc hr
    simp [StreamWrapper.read, hc, hr]

/-- **C8** (witness): the fast paths on concrete adapters. -/
theorem c8_zero_length_fast_paths_witness :
    (writeAdapter.write none = (.ok 0, writeAdapter)
      ∧ writeAdapter.write (some []) = (.ok 0, writeAdapter))
    ∧ plainAdapter.read 0 = (.ok [], plainAdapter) :=
  ⟨c8_zero_length_fast_paths.1 writeAdapter rfl rfl,
   c8_zero_length_fast_paths.2 plainAdapter rfl rfl⟩

/-- **C9**.  On an open, readable adapter, `readinto(b)` issues exactly
one underlying read request for `len(b)` bytes (the ghost `readLog` grows
by exactly `[len b]`), copies the `n` bytes actually returned into
positions `0..n-1` of the buffer, returns `n`, and leaves every byte from
position `n` on unchanged; the buffer keeps its length and is not
guaranteed to be filled. -/
theorem c9_readinto_underfill (w : StreamWrapper) (b : List Nat)
    (hc : w.closed = false) (hr : w.readable = true) :
    (w.readinto b).1 = .ok ((w.st.data.drop w.st.pos).take b.length).length
    ∧ (w.readinto b).2.1
        = ((w.st.data.drop w.st.pos).take b.length)
          ++ b.drop ((w.st.data.drop w.st.pos).take b.length).length
    ∧ (w.readinto b).2.1.length = b.length
    ∧ (w.readinto b).2.1.drop ((w.st.data.drop w.st.pos).take b.length).length
        = b.drop ((w.st.data.drop w.st.pos).take b.length).length
    ∧ (w.readinto b).2.2.st.readLog = w.st.readLog ++ [b.length]
    ∧ (w.readinto b).2.2.st.data = w.st.data
    ∧ (w.readinto b).2.2.st.pos
        = w.st.pos + ((w.st.data.drop w.st.pos).take b.length).length := by
  refine ⟨?_, ?_, ?_, ?_, ?_, ?_, ?_⟩ <;>
    simp [StreamWrapper.readinto, GioStream.read_bytes, hc, hr]

/-- **C9** (witness): the spec's under-fill scenario — an adapter holding
2 unread bytes, `readinto` on a 10-byte buffer returns 2, the first two
buffer bytes are the stream bytes, the rest of the buffer is untouched. -/
theorem c9_readinto_underfill_witness :
    (underfillAdapter.readinto tenBuf).1
        = .ok ((underfillAdapter.st.data.drop underfillAdapter.st.pos).take
            tenBuf.length).length
    ∧ (underfillAdapter.readinto tenBuf).2.1
        = ((underfillAdapter.st.data.drop underfillAdapter.st.pos).take
            tenBuf.length)
          ++ tenBuf.drop ((underfillAdapter.st.data.drop
              underfillAdapter.st.pos).take tenBuf.length).length
    ∧ (underfillAdapter.readinto tenBuf).2.1.length = tenBuf.length
    ∧ (underfillAdapter.readinto tenBuf).2.1.drop
          ((underfillAdapter.st.data.drop underfillAdapter.st.pos).take
            tenBuf.length).length
        = tenBuf.drop ((underfillAdapter.st.data.drop
            underfillAdapter.st.pos).take tenBuf.length).length
    ∧ (underfillAdapter.readinto tenBuf).2.2.st.readLog
        = underfillAdapter.st.readLog ++ [tenBuf.length]
    ∧ (underfillAdapter.readinto tenBuf).2.2.st.data = underfillAdapter.st.data
    ∧ (underfillAdapter.readinto tenBuf).2.2.st.pos
        = underfillAdapter.st.pos
          + ((underfillAdapter.st.data.drop underfillAdapter.st.pos).take
              tenBuf.length).length :=
  c9_readinto_underfill underfillAdapter tenBuf rfl rfl

/-- **C10** (implicit).  `seek` never validates `whence`: any value other
than 0 and 2 — including invalid ones such as 3 or -1 — is translated by
`whence = not whence` to the provider's from-current code, so the whole
call behaves identically to `seek(offset, 1)` instead of being rejected
with an invalid-argument error. -/
theorem c10_whence_fallthrough (w : StreamWrapper) (offset whence : Int)
    (h0 : whence ≠ 0) (h2 : whence ≠ 2) :
    w.seek offset whence = w.seek offset 1 := by
  have ht : StreamWrapper.translateWhence whence = StreamWrapper.translateWhence 1 := by
    rw [StreamWrapper.translateWhence, StreamWrapper.translateWhence]
    rw [if_neg h2, if_neg h0]
    rfl
  rw [StreamWrapper.seek, StreamWrapper.seek, ht]

/-- **C10** (witness): `seek(4, 3)` behaves exactly like `seek(4, 1)`. -/
theorem c10_whence_fallthrough_witness :
    plainAdapter.seek 4 3 = plainAdapter.seek 4 1 :=
  c10_whence_fallthrough plainAdapter 4 3 (by decide) (by decide)
